import Mathlib

/-!
Shallow embedding of the self-isolation pipeline of passt/pasta
(src/isolation.c), together with proofs about its capability-editing
primitives and its four stage entry points.

Machine integers are modelled as `Nat` with explicit truncation modulo
`2 ^ 32` where the C code's `uint32_t` types truncate.  Fallible system
calls are modelled by oracles giving each call's outcome (`SysRes`), and
a function that can terminate the process (`die_perror`) returns
`Option`/a `none` final state on the fatal path.
-/

/-- Linux errno value EPERM (operation not permitted). -/
def EPERM : Nat := 1

/-- Linux errno value EINVAL (invalid argument). -/
def EINVAL : Nat := 22

/-- Outcome of a system call: success, or failure with an errno value. -/
inductive SysRes where
  | ok : SysRes
  | fail : Nat → SysRes
deriving DecidableEq, Repr

/-- Truncation to 32 bits, the coercion a C `uint32_t` assignment performs. -/
def u32 (x : Nat) : Nat := x % 2 ^ 32

/-- One element of the C array `struct __user_cap_data_struct data[CAP_WORDS]`:
three 32-bit capability words (effective, permitted, inheritable). -/
structure CapWord where
  effective : Nat
  permitted : Nat
  inheritable : Nat
deriving DecidableEq, Repr

/-- The full capability data exchanged with capget/capset:
`_LINUX_CAPABILITY_U32S_3` = 2 words (`CAP_WORDS` in src/isolation.c),
`w0` being `data[0]` (capabilities 0..31) and `w1` being `data[1]`
(capabilities 32..63). -/
structure CapData where
  w0 : CapWord
  w1 : CapWord
deriving DecidableEq, Repr

/-- The 64-bit effective capability set encoded by the two data words,
reading each word as the `uint32_t` it is in C. -/
def CapData.effective64 (d : CapData) : Nat :=
  u32 d.w0.effective ||| (u32 d.w1.effective) <<< 32

/-- The 64-bit permitted capability set encoded by the two data words. -/
def CapData.permitted64 (d : CapData) : Nat :=
  u32 d.w0.permitted ||| (u32 d.w1.permitted) <<< 32

/-- The 64-bit inheritable capability set encoded by the two data words. -/
def CapData.inheritable64 (d : CapData) : Nat :=
  u32 d.w0.inheritable ||| (u32 d.w1.inheritable) <<< 32

/-- The 32-bit mask used for word `i` in drop_caps_ep_except:
`uint32_t mask = keep >> (32 * i);` (assignment to `uint32_t` truncates). -/
def capMaskWord (keep : Nat) (i : Nat) : Nat := u32 (keep >>> (32 * i))

/-- drop_caps_ep_except (src/isolation.c lines 99-120): for each of the
CAP_WORDS words, intersect the effective and permitted words with the
corresponding 32-bit slice of `keep`; the inheritable words are untouched.
The surrounding capget/capset calls die on failure and otherwise exchange
exactly this data, so the successful call is this pure transformation. -/
def drop_caps_ep_except (keep : Nat) (d : CapData) : CapData :=
  { w0 := { effective := d.w0.effective &&& capMaskWord keep 0,
            permitted := d.w0.permitted &&& capMaskWord keep 0,
            inheritable := d.w0.inheritable },
    w1 := { effective := d.w1.effective &&& capMaskWord keep 1,
            permitted := d.w1.permitted &&& capMaskWord keep 1,
            inheritable := d.w1.inheritable } }

/-- Concrete starting capability data used by witnesses: effective and
permitted sets 0b111 in word 0 and 0b1 in word 1, inheritable 0b10. -/
def capDataA : CapData :=
  { w0 := { effective := 7, permitted := 7, inheritable := 2 },
    w1 := { effective := 1, permitted := 1, inheritable := 0 } }

/-- Predicate from the loop condition at src/isolation.c lines 154-156:
a PR_CAPBSET_DROP outcome lets the loop continue exactly when the call
succeeded or failed with errno EINVAL or EPERM; on any other failure the
process dies. -/
def cap_drop_tolerated : SysRes → Bool
  | SysRes.ok => true
  | SysRes.fail e => e == EINVAL || e == EPERM

/-- The bounding-set drop loop of clamp_caps (src/isolation.c lines 145-157),
abstracted over an oracle giving the outcome of `prctl(PR_CAPBSET_DROP, i, ...)`
for each index `i` in 0..63.  Returns `some i` when the process dies at
index `i` (the first non-tolerated failure) and `none` when the loop
completes. -/
def clamp_bounding_loop (out : Nat → SysRes) : Option Nat :=
  (List.range 64).find? (fun i => ! cap_drop_tolerated (out i))

/-- Clearing bit `i` of a bitmask, the state effect of a successful
`prctl(PR_CAPBSET_DROP, i, ...)` on the bounding set. -/
def clearBit (b i : Nat) : Nat := if b.testBit i then b ^^^ (1 <<< i) else b

/-- One iteration's effect on the bounding set: a successful drop clears
bit `i`, a failed (tolerated) drop leaves the set unchanged. -/
def capbset_drop_step (out : Nat → SysRes) (b i : Nat) : Nat :=
  match out i with
  | SysRes.ok => clearBit b i
  | SysRes.fail _ => b

/-- The bounding set after the drop loop of clamp_caps has run over
indices 0..63 under outcome oracle `out`. -/
def boundingAfterDrops (out : Nat → SysRes) (b : Nat) : Nat :=
  (List.range 64).foldl (capbset_drop_step out) b

/-- The capget/capset cycle at src/isolation.c lines 159-166: the data is
read, `data[i].inheritable = 0` is assigned for each word, and the data is
written back; effective and permitted words are not touched. -/
def zero_inheritable (d : CapData) : CapData :=
  { w0 := { effective := d.w0.effective, permitted := d.w0.permitted,
            inheritable := 0 },
    w1 := { effective := d.w1.effective, permitted := d.w1.permitted,
            inheritable := 0 } }

/-- Capability state of the process relevant to clamp_caps: the capget/capset
data words plus the bounding set. -/
structure ProcCaps where
  data : CapData
  bounding : Nat
deriving DecidableEq, Repr

/-- clamp_caps (src/isolation.c lines 136-167), abstracted over the
PR_CAPBSET_DROP outcome oracle: run the bounding-set drop loop (dying on a
non-tolerated failure), then zero the inheritable words via a
capget/capset cycle.  `none` models process termination (die_perror). -/
def clamp_caps (out : Nat → SysRes) (p : ProcCaps) : Option ProcCaps :=
  match clamp_bounding_loop out with
  | some _ => none
  | none => some { data := zero_inheritable p.data,
                   bounding := boundingAfterDrops out p.bounding }

/-- Modelled from the comment at src/isolation.c lines 146-153 (the kernel's
behaviour is not part of the repository): `prctl(PR_CAPBSET_DROP, i, ...)`
fails with EINVAL when `i` is not an allocated capability on the running
kernel, fails with EPERM when the process lacks CAP_SETPCAP, and succeeds
otherwise. -/
def kernel_prctl (alloc : Nat → Bool) (hasSetPCap : Bool) (i : Nat) : SysRes :=
  if alloc i = false then SysRes.fail EINVAL
  else if hasSetPCap = false then SysRes.fail EPERM
  else SysRes.ok

/-- Whether the drop of capability `i` from the bounding set succeeds under
outcome oracle `out`. -/
def dropOk (out : Nat → SysRes) (i : Nat) : Bool :=
  match out i with
  | SysRes.ok => true
  | SysRes.fail _ => false

/-- Oracle in which capability index 3 is not allocated (EINVAL) and every
other drop succeeds; used as a witness input. -/
def outEinvalAt3 : Nat → SysRes :=
  fun i => if i = 3 then SysRes.fail EINVAL else SysRes.ok

/-- Kernel recognising capabilities 0..40, as a concrete witness input. -/
def allocA : Nat → Bool := fun i => decide (i < 41)

/-- Concrete starting process capability state for witnesses: the bounding
set holds capabilities 0..40. -/
def procCapsA : ProcCaps := { data := capDataA, bounding := 2 ^ 41 - 1 }

/-- The state produced by clamp_caps from `procCapsA` when all allocated
drops succeed. -/
def procCapsA2 : ProcCaps := { data := zero_inheritable capDataA, bounding := 0 }

/-- Oracle in which every bounding-set drop succeeds; witness input. -/
def outAllOk : Nat → SysRes := fun _ => SysRes.ok

/-- The state produced by clamp_caps from `procCapsA` under `outAllOk`. -/
def procCapsA3 : ProcCaps := { data := zero_inheritable capDataA, bounding := 0 }

/-- Operating mode tag, `enum passt_modes` (passt or pasta). -/
inductive PasstMode where
  | passt
  | pasta
deriving DecidableEq, Repr

/-- Opaque execution context handle, `const struct ctx *c`: its contents are
resolved by the host application and are not consulted by the code under
verification. -/
structure Ctx where
  mode : PasstMode
deriving DecidableEq, Repr

/-- Identifier of the namespace the process started in. -/
def originNs : Nat := 0

/-- Kernel-visible privilege state of the process, the host-visible effects
the isolation stages mutate: capability data and bounding set, identity,
open descriptors, namespace memberships, root filesystem reachability,
dumpability and the syscall policy in force (`allowed` maps a syscall
number to whether the current seccomp state permits it). -/
structure ProcState where
  capData : CapData
  bounding : Nat
  uid : Nat
  gid : Nat
  groups : List Nat
  openFds : List Nat
  userNs : Nat
  mountNs : Nat
  fsAccess : Bool
  dumpable : Bool
  allowed : Nat → Bool

/-- Modelled from the spec: close_open_files (called by isolate_initial at
src/isolation.c line 182) is defined in a file that is not part of this
repository snapshot; per the spec, Stage 1 prunes the inherited open file
descriptors to the standard streams and the one optionally designated
descriptor. -/
def close_open_files (designated : Option Nat) (fds : List Nat) : List Nat :=
  fds.filter (fun fd => fd ≤ 2 || designated == some fd)

/-- isolate_initial (src/isolation.c lines 180-183): Stage 1, which only
calls close_open_files; `designated` stands for the descriptor extracted
from the --fd option of argv. -/
def isolate_initial (designated : Option Nat) (s : ProcState) : ProcState :=
  { s with openFds := close_open_files designated s.openFds }

/-- Outcomes of the three identity system calls made by isolate_user. -/
structure IdOracle where
  setgroupsRes : SysRes
  setgidRes : SysRes
  setuidRes : SysRes
deriving DecidableEq, Repr

/-- The system calls isolate_user can attempt, for recording call order. -/
inductive IdAction where
  | setgroups
  | setgid
  | setuid
deriving DecidableEq, Repr

/-- Tail of isolate_user after setgroups and setgid succeeded (or setgroups
failed tolerably): `if (setuid(uid) != 0) die_perror(...)`. -/
def isolate_user_setuid (uid : Nat) (o : IdOracle) (s : ProcState) :
    List IdAction × Option ProcState :=
  match o.setuidRes with
  | SysRes.fail _ =>
    ([IdAction.setgroups, IdAction.setgid, IdAction.setuid], none)
  | SysRes.ok =>
    ([IdAction.setgroups, IdAction.setgid, IdAction.setuid],
     some { s with uid := uid })

/-- Middle of isolate_user: `if (setgid(gid) != 0) die_perror(...)`. -/
def isolate_user_setgid (uid gid : Nat) (o : IdOracle) (s : ProcState) :
    List IdAction × Option ProcState :=
  match o.setgidRes with
  | SysRes.fail _ => ([IdAction.setgroups, IdAction.setgid], none)
  | SysRes.ok => isolate_user_setuid uid o { s with gid := gid }

/-- isolate_user (src/isolation.c lines 199-214): clear supplementary groups
tolerating only EPERM, then setgid, then setuid, dying on any failure of the
latter two.  The first component is the sequence of system calls attempted,
the second the final state (`none` = the process died).  The parameters
`use_userns`, `userns` and `mode` are accepted and ignored, exactly as in
the source. -/
def isolate_user (uid gid : Nat) (use_userns : Bool) (userns : String)
    (mode : PasstMode) (o : IdOracle) (s : ProcState) :
    List IdAction × Option ProcState :=
  match o.setgroupsRes with
  | SysRes.fail e =>
    if e = EPERM then isolate_user_setgid uid gid o s
    else ([IdAction.setgroups], none)
  | SysRes.ok => isolate_user_setgid uid gid o { s with groups := [] }

/-- isolate_prefork (src/isolation.c lines 229-232): the body is
`return 0;` — no state transition occurs. -/
def isolate_prefork (c : Ctx) (s : ProcState) : Int × ProcState := (0, s)

/-- isolate_postfork (src/isolation.c lines 242-245): the body is
`return;` — no state transition occurs. -/
def isolate_postfork (c : Ctx) (s : ProcState) : ProcState := s

/-- drop_caps_ep_except acting on the full process state: only the capget/
capset data words change. -/
def drop_caps_ep_except_state (keep : Nat) (s : ProcState) : ProcState :=
  { s with capData := drop_caps_ep_except keep s.capData }

/-- clamp_caps acting on the full process state: only the capability data
and the bounding set change; `none` models process termination. -/
def clamp_caps_state (out : Nat → SysRes) (s : ProcState) : Option ProcState :=
  match clamp_caps out { data := s.capData, bounding := s.bounding } with
  | none => none
  | some p => some { s with capData := p.data, bounding := p.bounding }

/-- Pointwise inclusion of all four capability sets of `a` in those of `b`. -/
def capsLE (a b : ProcState) : Prop :=
  (∀ i, a.capData.effective64.testBit i = true →
     b.capData.effective64.testBit i = true) ∧
  (∀ i, a.capData.permitted64.testBit i = true →
     b.capData.permitted64.testBit i = true) ∧
  (∀ i, a.capData.inheritable64.testBit i = true →
     b.capData.inheritable64.testBit i = true) ∧
  (∀ i, a.bounding.testBit i = true → b.bounding.testBit i = true)

/-- Privilege of `a` does not exceed privilege of `b`: no capability was
added to any set, filesystem access was not re-opened, origin namespaces
were not rejoined, and the syscall policy allows no syscall that the
previous policy rejected. -/
def noPrivIncrease (a b : ProcState) : Prop :=
  capsLE a b ∧
  (a.fsAccess = true → b.fsAccess = true) ∧
  (a.userNs = originNs → b.userNs = originNs) ∧
  (a.mountNs = originNs → b.mountNs = originNs) ∧
  (∀ n, a.allowed n = true → b.allowed n = true)

/-- Syscall policy allowing everything, the state before any filter is
installed. -/
def allowAll : Nat → Bool := fun _ => true

/-- Concrete starting process state used by witnesses and counterexamples:
running as root in the origin namespaces, with full filesystem access, two
supplementary groups, a few inherited descriptors, dumpable, and no syscall
filter installed. -/
def st0 : ProcState :=
  { capData := capDataA, bounding := 2 ^ 41 - 1, uid := 0, gid := 0,
    groups := [4, 5], openFds := [0, 1, 2, 5, 7], userNs := originNs,
    mountNs := originNs, fsAccess := true, dumpable := true,
    allowed := allowAll }

/-- Concrete context handle used by the stage entry points in witnesses. -/
def ctx0 : Ctx := { mode := PasstMode.passt }

/-- Identity oracle in which all three identity calls succeed. -/
def oOk : IdOracle :=
  { setgroupsRes := SysRes.ok, setgidRes := SysRes.ok, setuidRes := SysRes.ok }

/-- The state clamp_caps produces from `st0` when every bounding drop
succeeds. -/
def stAfterClamp : ProcState :=
  { st0 with capData := zero_inheritable capDataA, bounding := 0 }

theorem u32_testBit (x i : Nat) :
    (u32 x).testBit i = (decide (i < 32) && x.testBit i) := by
  simpa [u32] using Nat.testBit_mod_two_pow x 32 i

theorem pack64_testBit (a b i : Nat) :
    (u32 a ||| (u32 b) <<< 32).testBit i =
      (if i < 32 then a.testBit i else (decide (i < 64) && b.testBit (i - 32))) := by
  rcases lt_or_ge i 32 with h | h
  · have h32 : ¬ (32 ≤ i) := by omega
    simp [Nat.testBit_or, Nat.testBit_shiftLeft, u32_testBit, h, h32]
  · have h32 : 32 ≤ i := h
    have hni : ¬ (i < 32) := by omega
    by_cases h64 : i < 64
    · have : i - 32 < 32 := by omega
      simp [Nat.testBit_or, Nat.testBit_shiftLeft, u32_testBit, hni, h32, h64, this]
    · have : ¬ (i - 32 < 32) := by omega
      simp [Nat.testBit_or, Nat.testBit_shiftLeft, u32_testBit, hni, h32, h64, this]

theorem capMaskWord_testBit0 (keep i : Nat) (h : i < 32) :
    (capMaskWord keep 0).testBit i = keep.testBit i := by
  simp [capMaskWord, u32_testBit, h]

theorem capMaskWord_testBit1 (keep i : Nat) (h32 : 32 ≤ i) (h64 : i < 64) :
    (capMaskWord keep 1).testBit (i - 32) = keep.testBit i := by
  have h : i - 32 < 32 := by omega
  have : 32 + (i - 32) = i := by omega
  simp [capMaskWord, u32_testBit, h, Nat.testBit_shiftRight, this]

/-- Pointwise characterisation of the effective set after drop_caps_ep_except:
bit `i` survives exactly when it was set before and is set in `keep`. -/
theorem drop_caps_effective64_testBit (keep : Nat) (d : CapData) (i : Nat) :
    ((drop_caps_ep_except keep d).effective64).testBit i =
      (d.effective64.testBit i && keep.testBit i) := by
  simp only [drop_caps_ep_except, CapData.effective64]
  rw [pack64_testBit, pack64_testBit]
  rcases lt_or_ge i 32 with h | h
  · have hm := capMaskWord_testBit0 keep i h
    simp [h, Nat.testBit_and, hm]
  · have hni : ¬ (i < 32) := by omega
    by_cases h64 : i < 64
    · have hm := capMaskWord_testBit1 keep i h h64
      simp [hni, h64, Nat.testBit_and, hm, Bool.and_assoc, Bool.and_comm,
        Bool.and_left_comm]
    · simp [hni, h64]

/-- Pointwise characterisation of the permitted set after drop_caps_ep_except. -/
theorem drop_caps_permitted64_testBit (keep : Nat) (d : CapData) (i : Nat) :
    ((drop_caps_ep_except keep d).permitted64).testBit i =
      (d.permitted64.testBit i && keep.testBit i) := by
  simp only [drop_caps_ep_except, CapData.permitted64]
  rw [pack64_testBit, pack64_testBit]
  rcases lt_or_ge i 32 with h | h
  · have hm := capMaskWord_testBit0 keep i h
    simp [h, Nat.testBit_and, hm]
  · have hni : ¬ (i < 32) := by omega
    by_cases h64 : i < 64
    · have hm := capMaskWord_testBit1 keep i h h64
      simp [hni, h64, Nat.testBit_and, hm, Bool.and_assoc, Bool.and_comm,
        Bool.and_left_comm]
    · simp [hni, h64]

/-- C4: for every 64-bit keep-mask and every starting capability state, after
drop_caps_ep_except the resulting effective and permitted sets are each
subsets of the keep-mask and subsets of their respective pre-call values. -/
theorem drop_caps_ep_except_subset (keep : Nat) (d : CapData) (i : Nat) :
    (((drop_caps_ep_except keep d).effective64).testBit i = true →
       keep.testBit i = true ∧ d.effective64.testBit i = true) ∧
    (((drop_caps_ep_except keep d).permitted64).testBit i = true →
       keep.testBit i = true ∧ d.permitted64.testBit i = true) := by
  constructor
  · intro h
    rw [drop_caps_effective64_testBit] at h
    exact ⟨(Bool.and_eq_true _ _ |>.mp h).2, (Bool.and_eq_true _ _ |>.mp h).1⟩
  · intro h
    rw [drop_caps_permitted64_testBit] at h
    exact ⟨(Bool.and_eq_true _ _ |>.mp h).2, (Bool.and_eq_true _ _ |>.mp h).1⟩

theorem drop_caps_ep_except_subset_witness :
    ((2 : Nat).testBit 1 = true ∧ capDataA.effective64.testBit 1 = true) ∧
    ((2 : Nat).testBit 1 = true ∧ capDataA.permitted64.testBit 1 = true) :=
  ⟨(drop_caps_ep_except_subset 2 capDataA 1).1 (by decide),
   (drop_caps_ep_except_subset 2 capDataA 1).2 (by decide)⟩

/-- C8: drop_caps_ep_except is idempotent: applying it twice with the same
keep-mask yields exactly the capability data of applying it once. -/
theorem drop_caps_ep_except_idempotent (keep : Nat) (d : CapData) :
    drop_caps_ep_except keep (drop_caps_ep_except keep d) =
      drop_caps_ep_except keep d := by
  have hand : ∀ x m : Nat, (x &&& m) &&& m = x &&& m := by
    intro x m
    apply Nat.eq_of_testBit_eq
    intro i
    simp [Nat.testBit_and, Bool.and_assoc]
  simp [drop_caps_ep_except, hand]

theorem clearBit_testBit (b i j : Nat) :
    (clearBit b i).testBit j = if j = i then false else b.testBit j := by
  unfold clearBit
  by_cases hb : b.testBit i
  · rw [if_pos hb]
    by_cases hj : j = i
    · subst hj
      simp [Nat.testBit_xor, Nat.testBit_shiftLeft, hb]
    · have h1 : (1 <<< i).testBit j = false := by
        rcases lt_or_ge j i with h | h
        · simp [Nat.testBit_shiftLeft, Nat.not_le.mpr h]
        · have : 0 < j - i := by omega
          rcases Nat.exists_eq_add_of_lt this with ⟨k, hk⟩
          have : j - i = k + 1 := by omega
          simp [Nat.testBit_shiftLeft, h, this, Nat.testBit_succ]
      simp [Nat.testBit_xor, h1, hj]
  · rw [if_neg hb]
    by_cases hj : j = i
    · subst hj
      simpa using (Bool.eq_false_iff.mpr hb)
    · simp [hj]

theorem foldl_drop_testBit (out : Nat → SysRes) (l : List Nat) (b j : Nat) :
    (l.foldl (capbset_drop_step out) b).testBit j =
      (b.testBit j && ! (decide (j ∈ l) && dropOk out j)) := by
  induction l generalizing b with
  | nil => simp
  | cons i t ih =>
    rw [List.foldl_cons, ih]
    by_cases hj : j = i
    · subst hj
      cases hout : out j with
      | ok =>
        simp [capbset_drop_step, hout, clearBit_testBit, dropOk, List.mem_cons]
      | fail e =>
        simp [capbset_drop_step, hout, dropOk, List.mem_cons]
    · cases hout : out i with
      | ok =>
        simp [capbset_drop_step, hout, clearBit_testBit, hj, List.mem_cons]
      | fail e =>
        simp [capbset_drop_step, hout, hj, List.mem_cons]

theorem clamp_bounding_loop_kernel (alloc : Nat → Bool) (hp : Bool) :
    clamp_bounding_loop (kernel_prctl alloc hp) = none := by
  apply List.find?_eq_none.mpr
  intro x _
  by_cases h1 : alloc x = false
  · simp [kernel_prctl, cap_drop_tolerated, h1]
  · by_cases h2 : hp = false
    · simp [kernel_prctl, cap_drop_tolerated, h1, h2]
    · simp [kernel_prctl, cap_drop_tolerated, h1, h2]

/-- C7: in the bounding-set drop loop of clamp_caps over indices 0..63, the
loop completes exactly when every per-capability failure has errno EINVAL
(not an allocated capability) or EPERM (no permission to shrink the bounding
set); and when the process dies at an index, that index failed with some
other errno. -/
theorem clamp_caps_loop_tolerance (out : Nat → SysRes) :
    (clamp_bounding_loop out = none ↔
       ∀ i, i < 64 → ∀ e, out i = SysRes.fail e → (e = EINVAL ∨ e = EPERM)) ∧
    (∀ i, clamp_bounding_loop out = some i →
       ∃ e, out i = SysRes.fail e ∧ e ≠ EINVAL ∧ e ≠ EPERM) := by
  constructor
  · rw [clamp_bounding_loop, List.find?_eq_none]
    constructor
    · intro h i hi e he
      have hx := h i (List.mem_range.mpr hi)
      simp [cap_drop_tolerated, he] at hx
      exact (em (e = EINVAL)).elim Or.inl (fun hne => Or.inr (hx hne))
    · intro h x hx
      rcases hout : out x with _ | e
      · simp [cap_drop_tolerated, hout]
      · have := h x (List.mem_range.mp hx) e hout
        simp [cap_drop_tolerated, hout]
        exact fun hne => this.resolve_left hne
  · intro i hi
    have hp := List.find?_some hi
    rcases hout : out i with _ | e
    · rw [hout] at hp
      simp [cap_drop_tolerated] at hp
    · rw [hout] at hp
      simp [cap_drop_tolerated] at hp
      exact ⟨e, rfl, hp.1, hp.2⟩

theorem clamp_caps_loop_tolerance_witness :
    clamp_bounding_loop outEinvalAt3 = none :=
  (clamp_caps_loop_tolerance outEinvalAt3).1.mpr
    (fun i _ e he => by
      unfold outEinvalAt3 at he
      by_cases h3 : i = 3
      · rw [if_pos h3] at he
        exact Or.inl (SysRes.fail.inj he).symm
      · rw [if_neg h3] at he
        exact absurd he (by simp))

/-- C6: after clamp_caps returns, the inheritable set is empty, and (with
permission to shrink the bounding set, i.e. CAP_SETPCAP) every capability
the kernel recognises has been dropped from the bounding set; without that
permission the inheritable set is still empty and the bounding set is
unchanged.  The prctl outcomes follow the kernel model `kernel_prctl`. -/
theorem clamp_caps_spec (alloc : Nat → Bool) (hp : Bool) (p p' : ProcCaps)
    (h : clamp_caps (kernel_prctl alloc hp) p = some p') :
    p'.data.inheritable64 = 0 ∧
    (hp = true → ∀ i, i < 64 → alloc i = true → p'.bounding.testBit i = false) ∧
    (hp = false → p'.bounding = p.bounding) := by
  unfold clamp_caps at h
  rw [clamp_bounding_loop_kernel] at h
  obtain rfl := (Option.some.inj h).symm
  refine ⟨by simp [zero_inheritable, CapData.inheritable64, u32], ?_, ?_⟩
  · intro hhp i hi ha
    subst hhp
    simp only [boundingAfterDrops]
    rw [foldl_drop_testBit]
    simp [List.mem_range, hi, dropOk, kernel_prctl, ha]
  · intro hhp
    subst hhp
    simp only [boundingAfterDrops]
    apply Nat.eq_of_testBit_eq
    intro j
    rw [foldl_drop_testBit]
    by_cases ha : alloc j = false
    · simp [dropOk, kernel_prctl, ha]
    · simp [dropOk, kernel_prctl, ha]

set_option maxRecDepth 100000 in
theorem clamp_caps_spec_witness :
    procCapsA2.data.inheritable64 = 0 ∧
    (true = true → ∀ i, i < 64 → allocA i = true →
       procCapsA2.bounding.testBit i = false) ∧
    (true = false → procCapsA2.bounding = procCapsA.bounding) :=
  clamp_caps_spec allocA true procCapsA procCapsA2 (by decide)

/-- C10: clamp_caps leaves the effective and permitted capability sets
unchanged: its capget/capset cycle zeroes only the inheritable words and
writes the effective and permitted words back exactly as read, whenever the
call completes (for any prctl outcome oracle). -/
theorem clamp_caps_frame (out : Nat → SysRes) (p p' : ProcCaps)
    (h : clamp_caps out p = some p') :
    p'.data.w0.effective = p.data.w0.effective ∧
    p'.data.w1.effective = p.data.w1.effective ∧
    p'.data.w0.permitted = p.data.w0.permitted ∧
    p'.data.w1.permitted = p.data.w1.permitted ∧
    p'.data.w0.inheritable = 0 ∧
    p'.data.w1.inheritable = 0 := by
  unfold clamp_caps at h
  cases hl : clamp_bounding_loop out with
  | some i => rw [hl] at h; exact absurd h (by simp)
  | none =>
    rw [hl] at h
    obtain rfl := (Option.some.inj h).symm
    exact ⟨rfl, rfl, rfl, rfl, rfl, rfl⟩

set_option maxRecDepth 100000 in
theorem clamp_caps_frame_witness :
    procCapsA3.data.w0.effective = procCapsA.data.w0.effective ∧
    procCapsA3.data.w1.effective = procCapsA.data.w1.effective ∧
    procCapsA3.data.w0.permitted = procCapsA.data.w0.permitted ∧
    procCapsA3.data.w1.permitted = procCapsA.data.w1.permitted ∧
    procCapsA3.data.w0.inheritable = 0 ∧
    procCapsA3.data.w1.inheritable = 0 :=
  clamp_caps_frame outAllOk procCapsA procCapsA3 (by decide)

theorem noPrivIncrease_refl (s : ProcState) : noPrivIncrease s s :=
  ⟨⟨fun _ h => h, fun _ h => h, fun _ h => h, fun _ h => h⟩,
   fun h => h, fun h => h, fun h => h, fun _ h => h⟩

theorem noPrivIncrease_of_fields (a b : ProcState)
    (h1 : a.capData = b.capData) (h2 : a.bounding = b.bounding)
    (h3 : a.fsAccess = b.fsAccess) (h4 : a.userNs = b.userNs)
    (h5 : a.mountNs = b.mountNs) (h6 : a.allowed = b.allowed) :
    noPrivIncrease a b := by
  refine ⟨⟨?_, ?_, ?_, ?_⟩, ?_, ?_, ?_, ?_⟩ <;>
    simp [h1, h2, h3, h4, h5, h6]

theorem zero_inheritable_effective64 (d : CapData) :
    (zero_inheritable d).effective64 = d.effective64 := rfl

theorem zero_inheritable_permitted64 (d : CapData) :
    (zero_inheritable d).permitted64 = d.permitted64 := rfl

theorem zero_inheritable_inheritable64 (d : CapData) :
    (zero_inheritable d).inheritable64 = 0 := by
  simp [zero_inheritable, CapData.inheritable64, u32]

theorem boundingAfterDrops_le (out : Nat → SysRes) (b j : Nat)
    (h : (boundingAfterDrops out b).testBit j = true) : b.testBit j = true := by
  rw [boundingAfterDrops, foldl_drop_testBit] at h
  exact (Bool.and_eq_true _ _ |>.mp h).1

/-- C1: Stage 3 (isolate_prefork) performs no filesystem isolation: at a
concrete state with full path-based filesystem access in the original mount
namespace, the call returns 0 and leaves the state unchanged — no new
mount namespace is created and the root is not pivoted, contradicting the
claim that after the call the process has no path-based access to the
original filesystem. -/
theorem isolate_prefork_no_isolation :
    (isolate_prefork ctx0 st0).1 = 0 ∧
    ((isolate_prefork ctx0 st0).2).mountNs = originNs ∧
    ((isolate_prefork ctx0 st0).2).fsAccess = true ∧
    (isolate_prefork ctx0 st0).2 = st0 :=
  ⟨rfl, rfl, rfl, rfl⟩

/-- C2: Stage 4 (isolate_postfork) neither disables core dumps nor installs
a syscall filter: at a concrete dumpable state with an all-allowing syscall
policy, the call leaves the state unchanged — the process remains dumpable
and every syscall remains allowed. -/
theorem isolate_postfork_no_restriction :
    (isolate_postfork ctx0 st0).dumpable = true ∧
    (isolate_postfork ctx0 st0).allowed 999 = true ∧
    isolate_postfork ctx0 st0 = st0 :=
  ⟨rfl, rfl, rfl⟩

/-- C3: isolate_user ignores its user-namespace arguments: with the
use-userns flag set and a namespace path supplied, the call completes
(all three identity calls succeeding) with the user-namespace membership
unchanged — the process is still in the original user namespace, so Stage 2
does not join or create a user namespace. -/
theorem isolate_user_ignores_userns :
    ((isolate_user 7 8 true ("/proc/4917/ns/user") PasstMode.pasta oOk
        st0).2.map (fun s => s.userNs)) = some st0.userNs ∧
    st0.userNs = originNs :=
  ⟨rfl, rfl⟩

/-- C5: Stage 2 (isolate_user) attempts exactly setgroups, then setgid, then
setuid, in this order: a setgroups failure is tolerated exactly when its
errno is EPERM and is otherwise fatal before setgid runs; any setgid failure
is fatal before setuid runs; any setuid failure is fatal; and on the
success paths all three calls were made in order and the target GID and UID
are set. -/
theorem isolate_user_sequence (uid gid : Nat) (uu : Bool) (un : String)
    (m : PasstMode) (o : IdOracle) (s : ProcState) :
    (∀ e, o.setgroupsRes = SysRes.fail e → e ≠ EPERM →
       isolate_user uid gid uu un m o s = ([IdAction.setgroups], none)) ∧
    ((o.setgroupsRes = SysRes.ok ∨ o.setgroupsRes = SysRes.fail EPERM) →
       ∀ e, o.setgidRes = SysRes.fail e →
         isolate_user uid gid uu un m o s =
           ([IdAction.setgroups, IdAction.setgid], none)) ∧
    ((o.setgroupsRes = SysRes.ok ∨ o.setgroupsRes = SysRes.fail EPERM) →
       o.setgidRes = SysRes.ok →
       ∀ e, o.setuidRes = SysRes.fail e →
         isolate_user uid gid uu un m o s =
           ([IdAction.setgroups, IdAction.setgid, IdAction.setuid], none)) ∧
    ((o.setgroupsRes = SysRes.ok ∨ o.setgroupsRes = SysRes.fail EPERM) →
       o.setgidRes = SysRes.ok → o.setuidRes = SysRes.ok →
       ∃ s', isolate_user uid gid uu un m o s =
           ([IdAction.setgroups, IdAction.setgid, IdAction.setuid],
            some s') ∧
         s'.gid = gid ∧ s'.uid = uid) := by
  refine ⟨?_, ?_, ?_, ?_⟩
  · intro e he hne
    simp [isolate_user, he, hne]
  · rintro (hg | hg) e hgid
    · simp [isolate_user, hg, isolate_user_setgid, hgid]
    · simp [isolate_user, hg, isolate_user_setgid, hgid]
  · rintro (hg | hg) hgid e huid
    · simp [isolate_user, hg, isolate_user_setgid, hgid,
        isolate_user_setuid, huid]
    · simp [isolate_user, hg, isolate_user_setgid, hgid,
        isolate_user_setuid, huid]
  · rintro (hg | hg) hgid huid
    · simp only [isolate_user, hg, isolate_user_setgid, hgid,
        isolate_user_setuid, huid]
      exact ⟨_, rfl, rfl, rfl⟩
    · simp only [isolate_user, hg, if_pos rfl, isolate_user_setgid, hgid,
        isolate_user_setuid, huid]
      exact ⟨_, rfl, rfl, rfl⟩

theorem isolate_user_sequence_witness :
    ∃ s', isolate_user 7 8 false ("") PasstMode.passt oOk st0 =
        ([IdAction.setgroups, IdAction.setgid, IdAction.setuid], some s') ∧
      s'.gid = 8 ∧ s'.uid = 7 :=
  (isolate_user_sequence 7 8 false ("") PasstMode.passt oOk st0).2.2.2
    (Or.inl rfl) rfl rfl

theorem isolate_user_some_fields (uid gid : Nat) (uu : Bool) (un : String)
    (m : PasstMode) (o : IdOracle) (s s' : ProcState)
    (h : (isolate_user uid gid uu un m o s).2 = some s') :
    s'.capData = s.capData ∧ s'.bounding = s.bounding ∧
    s'.fsAccess = s.fsAccess ∧ s'.userNs = s.userNs ∧
    s'.mountNs = s.mountNs ∧ s'.allowed = s.allowed := by
  unfold isolate_user isolate_user_setgid isolate_user_setuid at h
  repeat' split at h
  all_goals simp at h
  all_goals subst h
  all_goals exact ⟨rfl, rfl, rfl, rfl, rfl, rfl⟩

/-- C9: privilege only ever decreases across the pipeline: no stage entry
point (isolate_initial, isolate_user, isolate_prefork, isolate_postfork)
and no capability-editor operation (drop_caps_ep_except, clamp_caps) adds
a capability to any of the four capability sets, re-opens filesystem
access, rejoins an origin namespace, or loosens the syscall policy. -/
theorem pipeline_privilege_monotone :
    (∀ fd s, noPrivIncrease (isolate_initial fd s) s) ∧
    (∀ uid gid uu un m o s s',
       (isolate_user uid gid uu un m o s).2 = some s' →
       noPrivIncrease s' s) ∧
    (∀ c s, noPrivIncrease (isolate_prefork c s).2 s) ∧
    (∀ c s, noPrivIncrease (isolate_postfork c s) s) ∧
    (∀ keep s, noPrivIncrease (drop_caps_ep_except_state keep s) s) ∧
    (∀ out s s', clamp_caps_state out s = some s' → noPrivIncrease s' s) := by
  refine ⟨?_, ?_, ?_, ?_, ?_, ?_⟩
  · intro fd s
    exact noPrivIncrease_of_fields _ _ rfl rfl rfl rfl rfl rfl
  · intro uid gid uu un m o s s' h
    obtain ⟨h1, h2, h3, h4, h5, h6⟩ :=
      isolate_user_some_fields uid gid uu un m o s s' h
    exact noPrivIncrease_of_fields _ _ h1 h2 h3 h4 h5 h6
  · intro c s
    exact noPrivIncrease_refl s
  · intro c s
    exact noPrivIncrease_refl s
  · intro keep s
    refine ⟨⟨?_, ?_, ?_, ?_⟩, fun h => h, fun h => h, fun h => h,
      fun _ h => h⟩
    · intro i h
      have : (drop_caps_ep_except_state keep s).capData.effective64.testBit i
          = true := h
      rw [drop_caps_ep_except_state] at this
      simp only at this
      rw [drop_caps_effective64_testBit] at this
      exact (Bool.and_eq_true _ _ |>.mp this).1
    · intro i h
      have : (drop_caps_ep_except_state keep s).capData.permitted64.testBit i
          = true := h
      rw [drop_caps_ep_except_state] at this
      simp only at this
      rw [drop_caps_permitted64_testBit] at this
      exact (Bool.and_eq_true _ _ |>.mp this).1
    · intro i h
      exact h
    · intro i h
      exact h
  · intro out s s' h
    rw [clamp_caps_state] at h
    rcases hl : clamp_bounding_loop out with _ | i
    · rw [clamp_caps, hl] at h
      simp only at h
      have h2 := Option.some.inj h
      subst h2
      refine ⟨⟨?_, ?_, ?_, ?_⟩, fun hh => hh, fun hh => hh, fun hh => hh,
        fun _ hh => hh⟩
      · intro i hh
        rwa [zero_inheritable_effective64] at hh
      · intro i hh
        rwa [zero_inheritable_permitted64] at hh
      · intro i hh
        rw [zero_inheritable_inheritable64] at hh
        exact absurd hh (by simp [Nat.testBit])
      · intro i hh
        exact boundingAfterDrops_le out s.bounding i hh
    · rw [clamp_caps, hl] at h
      exact absurd h (by simp)

set_option maxRecDepth 100000 in
theorem pipeline_privilege_monotone_witness :
    noPrivIncrease stAfterClamp st0 :=
  pipeline_privilege_monotone.2.2.2.2.2 outAllOk st0 stAfterClamp rfl
